import Mathlib

/-!
# Verification of the OP_COMMANDREPLY decoder (`command_reply.go`)

Shallow embedding of the `CommandReplyOp` decoder and its accessors from
`command_reply.go` of the mongotape package, together with proofs of the
specified properties.

Byte streams are modelled as `List Nat` (each entry one byte).  The reader
consumed by `FromReader` advances through the stream; we pass the remaining
stream explicitly and return the unread suffix.

Parts of the repository that `command_reply.go` calls but whose source is not
part of this development (`ReadDocument`, `MsgHeaderLen`, `Abbreviate`,
`extractErrorsFromDoc`) are modelled from the specification and marked as such
in their doc comments.  Behaviour of the third-party bson library
(`bson.Unmarshal` into `bson.Raw`, `bson.D` decoding) is modelled at the level
that `command_reply.go` observes it.
-/

/-- Little-endian 32-bit value read from the first four bytes of a list
(0 when fewer than four bytes are present; the callers below always check
a length of at least 4 first). -/
def le32 (bs : List Nat) : Nat :=
  match bs with
  | b0 :: b1 :: b2 :: b3 :: _ => b0 + 256 * b1 + 65536 * b2 + 16777216 * b3
  | _ => 0

/-- Modelled from the spec: the configured maximum message size used by the
Frame Reader as its defensive bound on a document's declared length
(spec §4.1 "absurdly large … exceeds a configured maximum message size"). -/
def maxMessageSize : Nat := 48 * 1024 * 1024

/-- Modelled from the spec: the fixed byte length of the wire message header
(spec §6: "a declared total message length and fixed header byte length";
the MongoDB wire header is four little-endian int32 fields). -/
def MsgHeaderLen : Nat := 16

/-- Errors surfaced while decoding; the taxonomy of spec §7 restricted to the
errors the embedded code can actually produce.  `malformedDocument` stands for
the single "Document is corrupted" unmarshal error of the bson library. -/
inductive DecodeErr where
  | truncatedInput
  | malformedLength
  | malformedDocument
deriving DecidableEq, Repr

/-- `bson.Raw` of the bson library: a kind byte plus the raw document bytes. -/
structure Raw where
  kind : Nat
  data : List Nat
deriving DecidableEq, Repr

/-- A byte list is a well-formed length-prefixed wire document: at least five
bytes (4-byte prefix plus NUL terminator), within the frame reader's size
bound, its little-endian length prefix counts the whole document including the
prefix itself, it ends in a NUL byte, and every entry is a byte. -/
def wellFormedDoc (b : List Nat) : Prop :=
  5 ≤ b.length ∧ b.length ≤ maxMessageSize ∧ le32 b = b.length ∧
    b.get? (b.length - 1) = some 0 ∧ ∀ x ∈ b, x < 256

instance (b : List Nat) : Decidable (wellFormedDoc b) := by
  unfold wellFormedDoc; infer_instance

/-- Modelled from the spec: `ReadDocument` (the Frame Reader, §4.1), whose
source is not part of this development.  It reads the 4-byte little-endian
length prefix, rejects a declared length that cannot frame a document (below
the 5-byte minimum, which covers the spec's "non-positive" lengths) or exceeds
the configured maximum, reads the remaining declared bytes, and returns the
whole document (prefix included) together with the unread rest of the stream.
Fewer available bytes than declared is a truncated-input error. -/
def ReadDocument (s : List Nat) : Except DecodeErr (List Nat × List Nat) :=
  if s.length < 4 then .error .truncatedInput
  else
    let n := le32 s
    if n < 5 ∨ maxMessageSize < n then .error .malformedLength
    else if s.length < n then .error .truncatedInput
    else .ok (s.take n, s.drop n)

/-- `bson.Unmarshal` of the bson library into a `*bson.Raw`, as
`command_reply.go` observes it: the library reads the int32 length prefix,
rejects a document shorter than its prefix's 4 bytes, a declared length below 5
or beyond the slice, or a missing NUL terminator at the declared end, and on
success stores kind `0x03` with the document bytes.  (The library does not walk
the elements when the target is `Raw`.) -/
def unmarshalRaw (b : List Nat) : Option Raw :=
  if 4 ≤ b.length ∧ 5 ≤ le32 b ∧ le32 b ≤ b.length ∧ b.get? (le32 b - 1) = some 0
  then some ⟨3, b.take (le32 b)⟩
  else none

/-- Modelled from the spec: the wire message header value object (spec §6),
whose parser is not part of this development.  Only `messageLength` (the Go
`MessageLength int32`) is consulted by `FromReader`. -/
structure MsgHeader where
  messageLength : Int
  requestID : Int
  responseTo : Int
  opCode : Int
deriving DecidableEq, Repr

/-- The `CommandReplyOp` record of `command_reply.go`: the header, the fields
of the embedded `mgo.CommandReplyOp` that the file uses (`CommandReply`,
`Metadata`, `OutputDocs` — dynamically typed in Go, here `Option Raw` /
`List Raw` since this file only ever stores `*bson.Raw` values in them),
the `Docs` slice, the latency (a Go `time.Duration`, an `int64` nanosecond
count), and the cursor-id memoization pair. -/
structure CommandReplyOp where
  header : MsgHeader
  commandReply : Option Raw
  metadata : Option Raw
  outputDocs : List Raw
  docs : List Raw
  latency : Int
  cursorCached : Bool
  cursorId : Int
deriving DecidableEq, Repr

/-- The document slice produced by the `docAsSlice, err := ReadDocument(r)`
call inside the output-document loop.  The source never checks this `err`
(it is overwritten by the `bson.Unmarshal` result on the next line), so on a
failed read the loop proceeds with no document bytes. -/
def readDoc1 (s : List Nat) : List Nat :=
  match ReadDocument s with
  | .ok (d, _) => d
  | .error _ => []

/-- The stream position after the `ReadDocument` call inside the
output-document loop (unchanged when the read failed; the loop aborts on the
following unmarshal in that case, so the position is never used again). -/
def readRest (s : List Nat) : List Nat :=
  match ReadDocument s with
  | .ok (_, s1) => s1
  | .error _ => s

/-- The trailing output-document loop of `FromReader` (`command_reply.go`
lines 146–156): while `lengthRead + docLen < int(MessageLength) - MsgHeaderLen`,
read one document, unmarshal it (note: the read error itself is dropped by the
source — only the unmarshal error is checked), account its bytes in `docLen`
and append it to `OutputDocs`. -/
def readLoop (target : Int) (lengthRead docLen : Nat) (acc : List Raw)
    (s : List Nat) : Except DecodeErr (List Raw × Nat × List Nat) :=
  if h : (lengthRead : Int) + (docLen : Int) < target then
    match h2 : unmarshalRaw (readDoc1 s) with
    | none => .error .malformedDocument
    | some doc =>
        readLoop target lengthRead (docLen + (readDoc1 s).length)
          (acc ++ [doc]) (readRest s)
  else
    .ok (acc, docLen, s)
termination_by (target - ((lengthRead : Int) + (docLen : Int))).toNat
decreasing_by
  have h5 : 5 ≤ (readDoc1 s).length := by
    unfold unmarshalRaw at h2
    split at h2
    · next hc => obtain ⟨_, hb, hc', _⟩ := hc; omega
    · exact absurd h2 (by simp)
  omega

/-- `FromReader` of `command_reply.go` (lines 123–158): read and unmarshal the
command-reply document, then the metadata document, then run the
output-document loop up to the header-declared length.  Returns the populated
record and the unread rest of the stream, or the first error encountered. -/
def FromReader (op : CommandReplyOp) (s : List Nat) :
    Except DecodeErr (CommandReplyOp × List Nat) :=
  match ReadDocument s with
  | .error e => .error e
  | .ok (commandReplyAsSlice, s1) =>
    match unmarshalRaw commandReplyAsSlice with
    | none => .error .malformedDocument
    | some commandReply =>
      match ReadDocument s1 with
      | .error e => .error e
      | .ok (metadataAsSlice, s2) =>
        match unmarshalRaw metadataAsSlice with
        | none => .error .malformedDocument
        | some metadata =>
          match readLoop (op.header.messageLength - (MsgHeaderLen : Int))
              (commandReplyAsSlice.length + metadataAsSlice.length) 0 [] s2 with
          | .error e => .error e
          | .ok (outDocs, _, s3) =>
            .ok ({ op with commandReply := some commandReply,
                           metadata := some metadata,
                           outputDocs := outDocs }, s3)

/-- `getNumReturned` of `command_reply.go` (lines 167–169): the length of the
`Docs` slice. -/
def getNumReturned (op : CommandReplyOp) : Nat :=
  op.docs.length

/-- `getLatencyMicros` of `command_reply.go` (lines 171–173):
`int64(op.Latency / time.Microsecond)` — truncating int64 division of the
nanosecond count by 1000. -/
def getLatencyMicros (op : CommandReplyOp) : Int :=
  op.latency.tdiv 1000

/-- One error entry extracted from a reply document (message and code, per the
shared `$err` / `errmsg` / `code` convention). -/
structure ReplyError where
  message : String
  code : Int
deriving DecidableEq, Repr

/-- `getErrors` of `command_reply.go` (lines 174–185): returns no errors when
`Docs` is empty; otherwise unmarshals `Docs[0]` into a `bson.D` and runs
`extractErrorsFromDoc` on it.  The bson `bson.D` decoding (third-party
library) and `extractErrorsFromDoc` (repository code outside this file) are
abstracted as the parameters `unmarshalD` and `extractErrors` over an abstract
document type `D`.  The source panics when the unmarshal fails; that is the
`none` result. -/
def getErrors (D : Type) (unmarshalD : Raw → Option D)
    (extractErrors : D → List ReplyError) (op : CommandReplyOp) :
    Option (List ReplyError) :=
  match op.docs with
  | [] => some []
  | d0 :: _ =>
    match unmarshalD d0 with
    | none => none
    | some firstDoc => some (extractErrors firstDoc)

/-- Errors of `getCursorId`: the bson unmarshal failure (returned as an error
by the source), and the panic of the `op.CommandReply.(*bson.Raw)` type
assertion when the field does not hold a raw document (modelled as an error
result; no claim exercises it). -/
inductive CursorErr where
  | unmarshalFailed
  | notRaw
deriving DecidableEq, Repr

/-- `getCursorId` of `command_reply.go` (lines 65–83): return the memoized
value when `cursorCached` is set; otherwise unmarshal the `CommandReply` raw
document into the nested `cursor.id` structure — abstracted as the parameter
`u` for the third-party bson decoder composed with the `.Cursor.Id`
projection — and on success cache the value before returning it.  The record
is mutated only in the success path, exactly as in the source. -/
def getCursorId (u : Raw → Option Int) (op : CommandReplyOp) :
    Except CursorErr Int × CommandReplyOp :=
  if op.cursorCached then
    (.ok op.cursorId, op)
  else
    match op.commandReply with
    | none => (.error .notRaw, op)
    | some raw =>
      match u raw with
      | none => (.error .unmarshalFailed, op)
      | some v => (.ok v, { op with cursorCached := true, cursorId := v })

/-- Parse-count instrumentation for `getCursorId` (the spec's "parse-count
instrumentation hook"): how many times a call on `op` unmarshals the primary
document — zero when the value is cached or when the type assertion panics
before the unmarshal, one otherwise.  Independent of the unmarshal's outcome. -/
def cursorParseCount (op : CommandReplyOp) : Nat :=
  if op.cursorCached then 0
  else
    match op.commandReply with
    | none => 0
    | some _ => 1

/-- Modelled from the spec: `Abbreviate` (repository code outside this file),
which truncates one rendered segment to at most the caller's character budget
(spec §4.3 "truncatable to a caller-specified character budget per segment"). -/
def Abbreviate (s : List Char) (chars : Nat) : List Char :=
  s.take chars

/-- `getOpBodyString` of `command_reply.go` (lines 85–121): render the
command-reply document, then the metadata document, then — only when
`OutputDocs` is non-empty — the output-document list, propagating the first
rendering failure.  The JSON rendering pipeline
(`ConvertBSONValueToJSON` + `json.Marshal`, outside this file) is abstracted
as the renderer parameters `rD` (for one possibly-absent document) and `rL`
(for the output-document list); rendered text is a `List Char`. -/
def getOpBodyString (rD : Option Raw → Except (List Char) (List Char))
    (rL : List Raw → Except (List Char) (List Char)) (op : CommandReplyOp) :
    Except (List Char) (List Char × List Char × List Char) :=
  match rD op.commandReply with
  | .error e => .error e
  | .ok commandReplyAsJson =>
    match rD op.metadata with
    | .error e => .error e
    | .ok metadataAsJson =>
      if op.outputDocs.length ≠ 0 then
        match rL op.outputDocs with
        | .error e => .error e
        | .ok outputDocsAsJson => .ok (commandReplyAsJson, metadataAsJson, outputDocsAsJson)
      else .ok (commandReplyAsJson, metadataAsJson, [])

/-- `Abbreviated` of `command_reply.go` (lines 51–58): on a rendering failure
the error is formatted; otherwise the three rendered segments are each passed
through `Abbreviate` with the caller's budget and composed into one summary
string.  The source's format string `"CommandReply %v %v"` has two verbs for
three operands; Go's `fmt` renders the extra operand as
`%!(EXTRA string=<operand>)`, which the composition below reproduces. -/
def Abbreviated (rD : Option Raw → Except (List Char) (List Char))
    (rL : List Raw → Except (List Char) (List Char)) (op : CommandReplyOp)
    (chars : Nat) : List Char :=
  match getOpBodyString rD rL op with
  | .error e => e
  | .ok (commandReplyString, metadataString, outputDocsString) =>
      "CommandReply ".toList ++ Abbreviate commandReplyString chars
        ++ " ".toList ++ Abbreviate metadataString chars
        ++ "%!(EXTRA string=".toList ++ Abbreviate outputDocsString chars
        ++ ")".toList

/-! ## Concrete inputs used by witnesses and counterexamples -/

/-- The minimal well-formed wire document: a 5-byte length prefix and the
terminating NUL (the empty bson document `{}`). -/
def doc5 : List Nat := [5, 0, 0, 0, 0]

/-- The bson encoding of `{$err: "boom", code: 17}`: 30 bytes — length prefix,
a string element `$err` with value `"boom"`, an int32 element `code` with
value 17, and the terminating NUL. -/
def errDoc : List Nat :=
  [30, 0, 0, 0,
   2, 36, 101, 114, 114, 0, 5, 0, 0, 0, 98, 111, 111, 109, 0,
   16, 99, 111, 100, 101, 0, 17, 0, 0, 0,
   0]

/-- A freshly created record (the lifecycle's "created empty" state) whose
header declares total message length `ml`. -/
def mkOp (ml : Int) : CommandReplyOp :=
  { header := { messageLength := ml, requestID := 0, responseTo := 0, opCode := 0 }
    commandReply := none
    metadata := none
    outputDocs := []
    docs := []
    latency := 0
    cursorCached := false
    cursorId := 0 }

/-- The record decoded from two empty documents followed by one output
document `doc5` (header length 16 + 15 = 31). -/
def decoded31 : CommandReplyOp :=
  { mkOp 31 with commandReply := some ⟨3, doc5⟩, metadata := some ⟨3, doc5⟩,
                 outputDocs := [⟨3, doc5⟩] }

/-- The record decoded with header length 29, whose declared payload of 13
bytes ends strictly inside the third 5-byte document. -/
def decoded29 : CommandReplyOp :=
  { mkOp 29 with commandReply := some ⟨3, doc5⟩, metadata := some ⟨3, doc5⟩,
                 outputDocs := [⟨3, doc5⟩] }

/-- The record decoded with header length 30 (payload 14 ends strictly inside
the third 5-byte document). -/
def decoded30 : CommandReplyOp :=
  { mkOp 30 with commandReply := some ⟨3, doc5⟩, metadata := some ⟨3, doc5⟩,
                 outputDocs := [⟨3, doc5⟩] }

/-- The record decoded from two empty documents and the `{$err:"boom",code:17}`
output document (header length 16 + 10 + 30 = 56). -/
def decoded56 : CommandReplyOp :=
  { mkOp 56 with commandReply := some ⟨3, doc5⟩, metadata := some ⟨3, doc5⟩,
                 outputDocs := [⟨3, errDoc⟩] }

/-- The record decoded from exactly two empty documents (header length 26). -/
def decoded26 : CommandReplyOp :=
  { mkOp 26 with commandReply := some ⟨3, doc5⟩, metadata := some ⟨3, doc5⟩,
                 outputDocs := [] }

/-- A decoded-shape record used by the cursor-id witnesses. -/
def cursorOp : CommandReplyOp :=
  { mkOp 26 with commandReply := some ⟨3, doc5⟩, metadata := some ⟨3, doc5⟩ }

/-- A record carrying a latency of 2500 nanoseconds. -/
def latOp : CommandReplyOp :=
  { mkOp 26 with latency := 2500 }

/-! ## Helper lemmas -/

theorem le32_append (b t : List Nat) (h : 4 ≤ b.length) :
    le32 (b ++ t) = le32 b := by
  rcases b with _ | ⟨b0, _ | ⟨b1, _ | ⟨b2, _ | ⟨b3, rest⟩⟩⟩⟩
  all_goals first | rfl | simp at h

/-- The Frame Reader consumes exactly one well-formed document from the front
of the stream. -/
theorem ReadDocument_wf (b t : List Nat) (h : wellFormedDoc b) :
    ReadDocument (b ++ t) = .ok (b, t) := by
  obtain ⟨h5, hmax, hlen, _, _⟩ := h
  have h4 : 4 ≤ b.length := by omega
  unfold ReadDocument
  simp only [le32_append b t h4, hlen, List.length_append]
  rw [if_neg (by omega), if_neg (by omega), if_neg (by omega),
    List.take_left, List.drop_left]

/-- Unmarshalling a well-formed document into a `bson.Raw` succeeds and stores
exactly the document's bytes. -/
theorem unmarshalRaw_wf (b : List Nat) (h : wellFormedDoc b) :
    unmarshalRaw b = some ⟨3, b⟩ := by
  obtain ⟨h5, hmax, hlen, hlast, _⟩ := h
  unfold unmarshalRaw
  rw [if_pos ⟨by omega, by omega, by omega, by rw [hlen]; exact hlast⟩, hlen,
    List.take_length]

theorem readDoc1_wf (b t : List Nat) (h : wellFormedDoc b) :
    readDoc1 (b ++ t) = b := by
  unfold readDoc1; rw [ReadDocument_wf b t h]

theorem readRest_wf (b t : List Nat) (h : wellFormedDoc b) :
    readRest (b ++ t) = t := by
  unfold readRest; rw [ReadDocument_wf b t h]

theorem readDoc1_err (s : List Nat) (e : DecodeErr) (h : ReadDocument s = .error e) :
    readDoc1 s = [] := by
  unfold readDoc1; rw [h]

/-- The loop stops, returning its accumulators, once the running byte count
has reached the target. -/
theorem readLoop_stop (target : Int) (lr dl : Nat) (acc : List Raw) (s : List Nat)
    (h : ¬ ((lr : Int) + (dl : Int) < target)) :
    readLoop target lr dl acc s = .ok (acc, dl, s) := by
  rw [readLoop.eq_def, dif_neg h]

/-- One iteration of the loop below the target consumes one well-formed
document from the front of the stream, accounts its bytes and appends it. -/
theorem readLoop_step (target : Int) (lr dl : Nat) (acc : List Raw)
    (d t : List Nat) (hwf : wellFormedDoc d) (h : (lr : Int) + (dl : Int) < target) :
    readLoop target lr dl acc (d ++ t) =
      readLoop target lr (dl + d.length) (acc ++ [⟨3, d⟩]) t := by
  conv_lhs => rw [readLoop.eq_def]
  rw [dif_pos h]
  split
  · next heq =>
      rw [readDoc1_wf d t hwf, unmarshalRaw_wf d hwf] at heq
      cases heq
  · next doc heq =>
      rw [readDoc1_wf d t hwf, unmarshalRaw_wf d hwf] at heq
      obtain rfl : doc = ⟨3, d⟩ := by cases heq; rfl
      rw [readDoc1_wf d t hwf, readRest_wf d t hwf]

/-- When the loop is still below the target but the read fails, the source
drops the read error and the subsequent unmarshal of the empty slice reports
document corruption: the loop returns `malformedDocument`, whatever the actual
read failure was. -/
theorem readLoop_readErr (target : Int) (lr dl : Nat) (acc : List Raw)
    (s : List Nat) (e : DecodeErr) (hg : (lr : Int) + (dl : Int) < target)
    (hre : ReadDocument s = .error e) :
    readLoop target lr dl acc s = .error .malformedDocument := by
  rw [readLoop.eq_def, dif_pos hg]
  split
  · rfl
  · next doc heq =>
      rw [readDoc1_err s e hre,
        show unmarshalRaw ([] : List Nat) = none from by decide] at heq
      cases heq

/-- Byte-exact run of the loop: when the remaining well-formed documents
together span exactly the gap to the target, the loop consumes all of them in
order and stops exactly at the stream position that follows them. -/
theorem readLoop_exact (tl : List (List Nat)) :
    ∀ (target : Int) (lr dl : Nat) (acc : List Raw) (rest : List Nat),
    (∀ d ∈ tl, wellFormedDoc d) →
    target = (lr : Int) + (dl : Int) + ((tl.map List.length).sum : Nat) →
    readLoop target lr dl acc (tl.flatten ++ rest) =
      .ok (acc ++ tl.map (fun d => ⟨3, d⟩), dl + (tl.map List.length).sum, rest) := by
  induction tl with
  | nil =>
      intro target lr dl acc rest _ ht
      simp only [List.flatten_nil, List.nil_append, List.map_nil,
        List.append_nil, List.sum_nil] at *
      rw [readLoop_stop _ _ _ _ _ (by omega)]
      simp
  | cons d tl ih =>
      intro target lr dl acc rest hwf ht
      have hd : wellFormedDoc d := hwf d (by simp)
      have h5 : 5 ≤ d.length := hd.1
      simp only [List.map_cons, List.sum_cons] at ht
      simp only [Nat.cast_add] at ht
      rw [List.flatten_cons, List.append_assoc,
        readLoop_step _ _ _ _ _ _ hd (by omega),
        ih target lr (dl + d.length) (acc ++ [Raw.mk 3 d]) rest
          (fun x hx => hwf x (by simp [hx])) (by simp only [Nat.cast_add]; omega)]
      simp [add_assoc]

/-- Boundary-crossing run of the loop: when the target falls past the
well-formed documents `tl` but no further than the end of the next document
`c`, the loop consumes all of `tl` and then the whole of `c` — it never
truncates `c` at the target — and stops, leaving the stream after `c`. -/
theorem readLoop_cross (tl : List (List Nat)) :
    ∀ (c rest : List Nat) (target : Int) (lr dl : Nat) (acc : List Raw),
    (∀ d ∈ tl, wellFormedDoc d) → wellFormedDoc c →
    ((lr : Int) + (dl : Int) + ((tl.map List.length).sum : Nat) < target) →
    (target ≤ (lr : Int) + (dl : Int) + ((tl.map List.length).sum : Nat) + c.length) →
    readLoop target lr dl acc (tl.flatten ++ (c ++ rest)) =
      .ok (acc ++ tl.map (fun d => ⟨3, d⟩) ++ [⟨3, c⟩],
        dl + (tl.map List.length).sum + c.length, rest) := by
  induction tl with
  | nil =>
      intro c rest target lr dl acc _ hc hlo hhi
      simp only [List.flatten_nil, List.nil_append, List.map_nil,
        List.append_nil, List.sum_nil] at *
      rw [readLoop_step _ _ _ _ _ _ hc (by omega),
        readLoop_stop _ _ _ _ _ (by push_cast; omega)]
      simp
  | cons d tl ih =>
      intro c rest target lr dl acc hwf hc hlo hhi
      have hd : wellFormedDoc d := hwf d (by simp)
      have h5 : 5 ≤ d.length := hd.1
      simp only [List.map_cons, List.sum_cons, Nat.cast_add] at hlo hhi
      rw [List.flatten_cons, List.append_assoc,
        readLoop_step _ _ _ _ _ _ hd (by omega),
        ih c rest target lr (dl + d.length) (acc ++ [Raw.mk 3 d])
          (fun x hx => hwf x (by simp [hx]))
          hc (by simp only [Nat.cast_add]; omega) (by simp only [Nat.cast_add]; omega)]
      simp [add_assoc]

/-- `FromReader` on a stream opening with two well-formed documents reduces to
the output-document loop over the remaining stream. -/
theorem FromReader_docs_eq (op : CommandReplyOp) (d0 d1 t : List Nat)
    (h0 : wellFormedDoc d0) (h1 : wellFormedDoc d1) :
    FromReader op (d0 ++ (d1 ++ t)) =
      match readLoop (op.header.messageLength - (MsgHeaderLen : Int))
          (d0.length + d1.length) 0 [] t with
      | .error e => .error e
      | .ok (outDocs, _, s3) =>
        .ok ({ op with commandReply := some ⟨3, d0⟩
                       metadata := some ⟨3, d1⟩
                       outputDocs := outDocs }, s3) := by
  unfold FromReader
  rw [ReadDocument_wf d0 (d1 ++ t) h0]
  simp only []
  rw [unmarshalRaw_wf d0 h0]
  simp only []
  rw [ReadDocument_wf d1 t h1]
  simp only []
  rw [unmarshalRaw_wf d1 h1]

/-- A successful `FromReader` writes only `CommandReply`, `Metadata` and
`OutputDocs`; every other field of the record is left unchanged. -/
theorem FromReader_ok_fields (op op' : CommandReplyOp) (s s' : List Nat)
    (h : FromReader op s = .ok (op', s')) :
    op'.docs = op.docs ∧ op'.header = op.header ∧ op'.latency = op.latency ∧
      op'.cursorCached = op.cursorCached ∧ op'.cursorId = op.cursorId := by
  unfold FromReader at h
  repeat' split at h
  any_goals cases h
  all_goals simp_all

/-! ## Claim theorems -/

/-- C1: for every wire payload of N ≥ 2 well-formed length-prefixed documents
packed back-to-back with the header declaring the exact total length,
`FromReader` succeeds, stores the first document as the command-reply document
and the second as the metadata document, yields the remaining N−2 documents
byte-for-byte and in wire order as the output documents, and stops exactly at
the end of the payload (any following bytes are left unread), the bytes
consumed being exactly the header's declared length minus the header length. -/
theorem fromReader_roundtrip (op : CommandReplyOp) (d0 d1 : List Nat)
    (tl : List (List Nat)) (rest : List Nat)
    (hwf : ∀ d ∈ d0 :: d1 :: tl, wellFormedDoc d)
    (hml : op.header.messageLength =
      (MsgHeaderLen : Int) + (((d0 :: d1 :: tl).map List.length).sum : Nat)) :
    FromReader op ((d0 :: d1 :: tl).flatten ++ rest) =
      .ok ({ op with commandReply := some ⟨3, d0⟩
                     metadata := some ⟨3, d1⟩
                     outputDocs := tl.map fun d => ⟨3, d⟩ }, rest) ∧
    op.header.messageLength - (MsgHeaderLen : Int) =
      ((d0 :: d1 :: tl).flatten.length : Nat) := by
  have h0 : wellFormedDoc d0 := hwf d0 (by simp)
  have h1 : wellFormedDoc d1 := hwf d1 (by simp)
  constructor
  · rw [List.flatten_cons, List.flatten_cons, List.append_assoc, List.append_assoc,
      FromReader_docs_eq op d0 d1 (tl.flatten ++ rest) h0 h1,
      readLoop_exact tl (op.header.messageLength - (MsgHeaderLen : Int))
        (d0.length + d1.length) 0 [] rest (fun x hx => hwf x (by simp [hx]))
        (by simp only [List.map_cons, List.sum_cons, Nat.cast_add] at hml ⊢; omega)]
    simp
  · rw [List.length_flatten]
    omega

/-- Witness for C1: three concrete 5-byte documents under a header declaring
16 + 15 = 31 total bytes decode to the expected record with nothing left. -/
theorem fromReader_roundtrip_witness :
    FromReader (mkOp 31) ((doc5 :: doc5 :: [doc5]).flatten ++ []) =
      .ok ({ mkOp 31 with commandReply := some ⟨3, doc5⟩
                          metadata := some ⟨3, doc5⟩
                          outputDocs := [doc5].map fun d => ⟨3, d⟩ }, []) ∧
    (mkOp 31).header.messageLength - (MsgHeaderLen : Int) =
      ((doc5 :: doc5 :: [doc5]).flatten.length : Nat) :=
  fromReader_roundtrip (mkOp 31) doc5 doc5 [doc5] [] (by decide) (by decide)

/-- C2 counterexample: a header declaring 29 total bytes puts the payload
boundary (13 bytes) strictly inside the third 5-byte document, yet `FromReader`
succeeds — there is no `FrameBoundaryError` in the code — and the crossing
document is appended whole to the output documents. -/
theorem fromReader_boundary_cex :
    FromReader (mkOp 29) (doc5 ++ (doc5 ++ (doc5 ++ []))) = .ok (decoded29, []) ∧
    decoded29.outputDocs = [⟨3, doc5⟩] := by
  constructor
  · have e1 := readLoop_step ((mkOp 29).header.messageLength - (MsgHeaderLen : Int))
      (doc5.length + doc5.length) 0 [] doc5 [] (by decide) (by decide)
    have e2 := readLoop_stop ((mkOp 29).header.messageLength - (MsgHeaderLen : Int))
      (doc5.length + doc5.length) (0 + doc5.length) ([] ++ [Raw.mk 3 doc5]) []
      (by decide)
    rw [FromReader_docs_eq (mkOp 29) doc5 doc5 (doc5 ++ []) (by decide) (by decide),
      e1, e2]
    rfl
  · rfl

/-- C2 (amended): for every input where the header-declared length falls
strictly inside a trailing document, `FromReader` does not fail: the loop
reads the entire crossing document, appends it whole to the output documents,
and terminates, having consumed more bytes than the declared payload length
`S`.  (The source treats the boundary by the strict loop guard alone; an
overshoot is neither detected nor reported.) -/
theorem fromReader_boundary_overshoot (op : CommandReplyOp)
    (d0 d1 c : List Nat) (tl : List (List Nat)) (rest : List Nat) (S : Int)
    (hwf : ∀ d ∈ d0 :: d1 :: tl, wellFormedDoc d) (hc : wellFormedDoc c)
    (hml : op.header.messageLength = (MsgHeaderLen : Int) + S)
    (hlo : ((((d0 :: d1 :: tl).map List.length).sum : Nat) : Int) < S)
    (hhi : S < ((((d0 :: d1 :: tl).map List.length).sum : Nat) : Int) + (c.length : Nat)) :
    FromReader op ((d0 :: d1 :: tl).flatten ++ (c ++ rest)) =
      .ok ({ op with commandReply := some ⟨3, d0⟩
                     metadata := some ⟨3, d1⟩
                     outputDocs := (tl.map fun d => ⟨3, d⟩) ++ [⟨3, c⟩] }, rest) ∧
    S < (((d0 :: d1 :: tl).flatten ++ c).length : Nat) := by
  have h0 : wellFormedDoc d0 := hwf d0 (by simp)
  have h1 : wellFormedDoc d1 := hwf d1 (by simp)
  constructor
  · rw [List.flatten_cons, List.flatten_cons, List.append_assoc, List.append_assoc,
      FromReader_docs_eq op d0 d1 (tl.flatten ++ (c ++ rest)) h0 h1,
      readLoop_cross tl c rest (op.header.messageLength - (MsgHeaderLen : Int))
        (d0.length + d1.length) 0 [] (fun x hx => hwf x (by simp [hx])) hc
        (by simp only [List.map_cons, List.sum_cons, Nat.cast_add] at hlo ⊢; omega)
        (by simp only [List.map_cons, List.sum_cons, Nat.cast_add] at hhi ⊢; omega)]
    simp
  · rw [List.length_append, List.length_flatten]
    simp only [List.map_cons, List.sum_cons, Nat.cast_add] at hhi ⊢
    omega

/-- Witness for the amended C2: header length 30 (payload 14) ends strictly
inside the third 5-byte document; decoding succeeds with the whole crossing
document appended, and 15 > 14 bytes of payload were consumed. -/
theorem fromReader_boundary_overshoot_witness :
    FromReader (mkOp 30) ((doc5 :: doc5 :: []).flatten ++ (doc5 ++ [])) =
      .ok (decoded30, []) ∧
    (14 : Int) < (((doc5 :: doc5 :: []).flatten ++ doc5).length : Nat) :=
  fromReader_boundary_overshoot (mkOp 30) doc5 doc5 doc5 [] [] 14
    (by decide) (by decide) (by decide) (by decide) (by decide)

/-- C3 (code bug, evaluated at the failing input): the header declares a
15-byte payload but the stream ends after two 5-byte documents.  The read
failure inside the output-document loop is dropped by the source (its `err`
is overwritten by the `bson.Unmarshal` result before being checked), so
`FromReader` reports the unmarshal error for the empty slice — document
corruption — and not the truncated-input failure that actually occurred. -/
theorem fromReader_maskedReadError :
    FromReader (mkOp 31) (doc5 ++ (doc5 ++ [])) = .error .malformedDocument ∧
    DecodeErr.malformedDocument ≠ DecodeErr.truncatedInput := by
  constructor
  · have e1 := readLoop_readErr ((mkOp 31).header.messageLength - (MsgHeaderLen : Int))
      (doc5.length + doc5.length) 0 [] [] .truncatedInput (by decide) rfl
    rw [FromReader_docs_eq (mkOp 31) doc5 doc5 [] (by decide) (by decide), e1]
  · decide

/-- C4 counterexample: a successful decode producing one output document on
which `getNumReturned` reports 0, not 1 — it counts `Docs`, which `FromReader`
never populates, not `outputDocs`. -/
theorem getNumReturned_cex :
    FromReader (mkOp 31) (doc5 ++ (doc5 ++ (doc5 ++ []))) = .ok (decoded31, []) ∧
    getNumReturned decoded31 = 0 ∧ decoded31.outputDocs.length = 1 := by
  refine ⟨?_, rfl, rfl⟩
  have e1 := readLoop_step ((mkOp 31).header.messageLength - (MsgHeaderLen : Int))
    (doc5.length + doc5.length) 0 [] doc5 [] (by decide) (by decide)
  have e2 := readLoop_stop ((mkOp 31).header.messageLength - (MsgHeaderLen : Int))
    (doc5.length + doc5.length) (0 + doc5.length) ([] ++ [Raw.mk 3 doc5]) []
    (by decide)
  rw [FromReader_docs_eq (mkOp 31) doc5 doc5 (doc5 ++ []) (by decide) (by decide),
    e1, e2]
  rfl

/-- C4 (amended): `getNumReturned` returns the length of the record's `Docs`
field — which a successful `FromReader` leaves unchanged — so every record
decoded from a fresh (empty-`Docs`) value reports 0, regardless of how many
output documents were decoded; it is a total function with no failure mode. -/
theorem getNumReturned_decoded (op op' : CommandReplyOp) (s s' : List Nat)
    (hfresh : op.docs = []) (h : FromReader op s = .ok (op', s')) :
    getNumReturned op' = op'.docs.length ∧ getNumReturned op' = 0 := by
  have hd := (FromReader_ok_fields op op' s s' h).1
  exact ⟨rfl, by unfold getNumReturned; rw [hd, hfresh]; rfl⟩

/-- Witness for the amended C4 at the concrete one-output-document decode. -/
theorem getNumReturned_decoded_witness :
    getNumReturned decoded31 = decoded31.docs.length ∧ getNumReturned decoded31 = 0 := by
  have hdec : FromReader (mkOp 31) (doc5 ++ (doc5 ++ (doc5 ++ []))) = .ok (decoded31, []) := by
    have e1 := readLoop_step ((mkOp 31).header.messageLength - (MsgHeaderLen : Int))
      (doc5.length + doc5.length) 0 [] doc5 [] (by decide) (by decide)
    have e2 := readLoop_stop ((mkOp 31).header.messageLength - (MsgHeaderLen : Int))
      (doc5.length + doc5.length) (0 + doc5.length) ([] ++ [Raw.mk 3 doc5]) []
      (by decide)
    rw [FromReader_docs_eq (mkOp 31) doc5 doc5 (doc5 ++ []) (by decide) (by decide),
      e1, e2]
    rfl
  exact getNumReturned_decoded (mkOp 31) decoded31 (doc5 ++ (doc5 ++ (doc5 ++ []))) []
    rfl hdec

/-- C5 counterexample: the sole output document of a successful decode is the
bson encoding of `{$err:"boom", code:17}`; the record's output documents are
non-empty, yet `getErrors` returns the empty list — it reads `Docs`, which the
decode left empty, and never consults the output document or the extractor
(here one that would report the `"boom"`/17 entry). -/
theorem getErrors_cex :
    FromReader (mkOp 56) (doc5 ++ (doc5 ++ (errDoc ++ []))) = .ok (decoded56, []) ∧
    getErrors Unit (fun _ => some ()) (fun _ => [⟨"boom", 17⟩]) decoded56 = some [] ∧
    decoded56.outputDocs = [⟨3, errDoc⟩] ∧
    (some [] : Option (List ReplyError)) ≠ some [⟨"boom", 17⟩] := by
  refine ⟨?_, rfl, rfl, by decide⟩
  have e1 := readLoop_step ((mkOp 56).header.messageLength - (MsgHeaderLen : Int))
    (doc5.length + doc5.length) 0 [] errDoc [] (by decide) (by decide)
  have e2 := readLoop_stop ((mkOp 56).header.messageLength - (MsgHeaderLen : Int))
    (doc5.length + doc5.length) (0 + errDoc.length) ([] ++ [Raw.mk 3 errDoc]) []
    (by decide)
  rw [FromReader_docs_eq (mkOp 56) doc5 doc5 (errDoc ++ []) (by decide) (by decide),
    e1, e2]
  rfl

/-- C5 (amended): `getErrors` parses the first entry of the record's `Docs`
field, not of `outputDocs`; a successful `FromReader` leaves `Docs` unchanged,
so on every record decoded from a fresh value `getErrors` returns the empty
list — for any bson decoder and any error extractor — even when the output
documents are non-empty. -/
theorem getErrors_decoded (D : Type) (uD : Raw → Option D)
    (ex : D → List ReplyError) (op op' : CommandReplyOp) (s s' : List Nat)
    (hfresh : op.docs = []) (h : FromReader op s = .ok (op', s')) :
    getErrors D uD ex op' = some [] := by
  have hd := (FromReader_ok_fields op op' s s' h).1
  unfold getErrors
  rw [hd, hfresh]

/-- Witness for the amended C5 at the decode whose sole output document is the
`{$err:"boom", code:17}` document, with an extractor that would report it. -/
theorem getErrors_decoded_witness :
    getErrors Unit (fun _ => some ()) (fun _ => [⟨"boom", 17⟩]) decoded56 = some [] := by
  have hdec : FromReader (mkOp 56) (doc5 ++ (doc5 ++ (errDoc ++ []))) = .ok (decoded56, []) := by
    have e1 := readLoop_step ((mkOp 56).header.messageLength - (MsgHeaderLen : Int))
      (doc5.length + doc5.length) 0 [] errDoc [] (by decide) (by decide)
    have e2 := readLoop_stop ((mkOp 56).header.messageLength - (MsgHeaderLen : Int))
      (doc5.length + doc5.length) (0 + errDoc.length) ([] ++ [Raw.mk 3 errDoc]) []
      (by decide)
    rw [FromReader_docs_eq (mkOp 56) doc5 doc5 (errDoc ++ []) (by decide) (by decide),
      e1, e2]
    rfl
  exact getErrors_decoded Unit (fun _ => some ()) (fun _ => [⟨"boom", 17⟩])
    (mkOp 56) decoded56 (doc5 ++ (doc5 ++ (errDoc ++ []))) [] rfl hdec

/-- C7: for every record decoded by `FromReader` from a fresh value and
carrying zero output documents, `getErrors` returns the empty error list and
does not fail, whatever bson decoder and error extractor are in use. -/
theorem getErrors_zeroOutput (D : Type) (uD : Raw → Option D)
    (ex : D → List ReplyError) (op op' : CommandReplyOp) (s s' : List Nat)
    (hfresh : op.docs = []) (h : FromReader op s = .ok (op', s'))
    (hout : op'.outputDocs = []) :
    getErrors D uD ex op' = some [] := by
  have hd := (FromReader_ok_fields op op' s s' h).1
  unfold getErrors
  rw [hd, hfresh]

/-- Witness for C7 at a concrete two-document message (no output documents). -/
theorem getErrors_zeroOutput_witness :
    getErrors Unit (fun _ => some ()) (fun _ => [⟨"x", 0⟩]) decoded26 = some [] := by
  have hdec : FromReader (mkOp 26) (doc5 ++ (doc5 ++ [])) = .ok (decoded26, []) := by
    have e2 := readLoop_stop ((mkOp 26).header.messageLength - (MsgHeaderLen : Int))
      (doc5.length + doc5.length) 0 [] [] (by decide)
    rw [FromReader_docs_eq (mkOp 26) doc5 doc5 [] (by decide) (by decide), e2]
    rfl
  exact getErrors_zeroOutput Unit (fun _ => some ()) (fun _ => [⟨"x", 0⟩])
    (mkOp 26) decoded26 (doc5 ++ (doc5 ++ [])) [] rfl hdec rfl

/-- C6: whenever a `getCursorId` call returns a cursor-id value, calling it
again on the record it returned yields the identical value and the identical
record, and the primary document is parsed at most once across the two calls:
the second call performs no parse at all (the value was memoized by the first
successful computation and is never invalidated). -/
theorem getCursorId_idempotent (u : Raw → Option Int) (op op₁ : CommandReplyOp)
    (v : Int) (h : getCursorId u op = (.ok v, op₁)) :
    getCursorId u op₁ = (.ok v, op₁) ∧ cursorParseCount op₁ = 0 ∧
      cursorParseCount op + cursorParseCount op₁ ≤ 1 := by
  unfold getCursorId at h
  split at h
  · next hcached =>
      simp only [Prod.mk.injEq, Except.ok.injEq] at h
      obtain ⟨rfl, rfl⟩ := h
      refine ⟨?_, ?_, ?_⟩ <;> simp [getCursorId, cursorParseCount, hcached]
  · next hnc =>
      split at h
      · simp at h
      · next raw hraw =>
          split at h
          · simp at h
          · next w hw =>
              simp only [Prod.mk.injEq, Except.ok.injEq] at h
              obtain ⟨rfl, rfl⟩ := h
              refine ⟨by simp [getCursorId], by simp [cursorParseCount], ?_⟩
              simp [cursorParseCount, hnc, hraw]

/-- Witness for C6: a first call on an uncached decoded-shape record (with a
decoder returning cursor id 42) memoizes; the second call repeats the value
with zero parses, one parse in total. -/
theorem getCursorId_idempotent_witness :
    getCursorId (fun _ => some 42) { cursorOp with cursorCached := true, cursorId := 42 } =
      (.ok 42, { cursorOp with cursorCached := true, cursorId := 42 }) ∧
    cursorParseCount { cursorOp with cursorCached := true, cursorId := 42 } = 0 ∧
    cursorParseCount cursorOp +
        cursorParseCount { cursorOp with cursorCached := true, cursorId := 42 } ≤ 1 :=
  getCursorId_idempotent (fun _ => some 42) cursorOp
    { cursorOp with cursorCached := true, cursorId := 42 } 42 rfl

/-- C8: `getLatencyMicros` is the pure truncating unit conversion of the
stored nanosecond latency into a microsecond count — it equals
`latency.tdiv 1000`, is total (no failure mode), and for non-negative stored
latencies it counts exactly the whole microseconds contained. -/
theorem getLatencyMicros_conversion (op : CommandReplyOp) :
    getLatencyMicros op = op.latency.tdiv 1000 ∧
      (0 ≤ op.latency →
        1000 * getLatencyMicros op ≤ op.latency ∧
          op.latency < 1000 * getLatencyMicros op + 1000) := by
  refine ⟨rfl, fun hpos => ?_⟩
  unfold getLatencyMicros
  rw [Int.tdiv_eq_ediv hpos (by omega)]
  omega

/-- Witness for C8 at a stored latency of 2500 nanoseconds (2 microseconds). -/
theorem getLatencyMicros_conversion_witness :
    getLatencyMicros latOp = (2500 : Int).tdiv 1000 ∧
      1000 * getLatencyMicros latOp ≤ latOp.latency ∧
      latOp.latency < 1000 * getLatencyMicros latOp + 1000 :=
  ⟨(getLatencyMicros_conversion latOp).1,
    ((getLatencyMicros_conversion latOp).2 (by decide)).1,
    ((getLatencyMicros_conversion latOp).2 (by decide)).2⟩

/-- C9: whenever the body rendering succeeds, `Abbreviated` renders the
command-reply document, the metadata document and the output-document list as
three segments, each independently truncated to at most the caller's character
budget, composed into one summary string (the third segment appearing through
Go fmt's rendering of the source's extra, verb-less operand). -/
theorem abbreviated_segments (rD : Option Raw → Except (List Char) (List Char))
    (rL : List Raw → Except (List Char) (List Char)) (op : CommandReplyOp)
    (chars : Nat) (s1 s2 s3 : List Char)
    (h : getOpBodyString rD rL op = .ok (s1, s2, s3)) :
    Abbreviated rD rL op chars =
      "CommandReply ".toList ++ Abbreviate s1 chars ++ " ".toList
        ++ Abbreviate s2 chars ++ "%!(EXTRA string=".toList
        ++ Abbreviate s3 chars ++ ")".toList ∧
      (Abbreviate s1 chars).length ≤ chars ∧
      (Abbreviate s2 chars).length ≤ chars ∧
      (Abbreviate s3 chars).length ≤ chars := by
  refine ⟨?_, ?_, ?_, ?_⟩
  · unfold Abbreviated
    rw [h]
  all_goals
    unfold Abbreviate
    simp [List.length_take]

/-- Witness for C9: concrete renderers produce a three-character body for each
document; with a budget of two characters each segment is truncated to two. -/
theorem abbreviated_segments_witness :
    Abbreviated (fun _ => .ok ['d', 'o', 'c']) (fun _ => .ok ['o']) (mkOp 26) 2 =
      "CommandReply ".toList ++ Abbreviate ['d', 'o', 'c'] 2 ++ " ".toList
        ++ Abbreviate ['d', 'o', 'c'] 2 ++ "%!(EXTRA string=".toList
        ++ Abbreviate [] 2 ++ ")".toList ∧
      (Abbreviate ['d', 'o', 'c'] 2).length ≤ 2 ∧
      (Abbreviate ['d', 'o', 'c'] 2).length ≤ 2 ∧
      (Abbreviate ([] : List Char) 2).length ≤ 2 :=
  abbreviated_segments (fun _ => .ok ['d', 'o', 'c']) (fun _ => .ok ['o'])
    (mkOp 26) 2 ['d', 'o', 'c'] ['d', 'o', 'c'] [] rfl

/-- C10: when `getCursorId` fails because the primary document does not
unmarshal, the record is returned unchanged — the cached flag stays `false`
and the cached cursor-id field keeps its prior value — and a subsequent call
re-attempts the parse (one further parse, same error) rather than serving a
stale or partially written cache; caching happens only on success. -/
theorem getCursorId_error_preserves (u : Raw → Option Int)
    (op op₁ : CommandReplyOp)
    (h : getCursorId u op = (.error .unmarshalFailed, op₁)) :
    op₁ = op ∧ op₁.cursorCached = false ∧ op₁.cursorId = op.cursorId ∧
      getCursorId u op₁ = (.error .unmarshalFailed, op₁) ∧
      cursorParseCount op₁ = 1 := by
  unfold getCursorId at h
  split at h
  · simp at h
  · next hnc =>
      split at h
      · simp at h
      · next raw hraw =>
          split at h
          · next hu =>
              simp only [Prod.mk.injEq] at h
              obtain ⟨-, rfl⟩ := h
              refine ⟨rfl, by simp_all, rfl, ?_, by simp [cursorParseCount, hnc, hraw]⟩
              simp [getCursorId, hnc, hraw, hu]
          · simp at h

/-- Witness for C10: an uncached record whose decoder always fails leaves the
record untouched and parses again on the second call. -/
theorem getCursorId_error_preserves_witness :
    cursorOp = cursorOp ∧ cursorOp.cursorCached = false ∧
      cursorOp.cursorId = cursorOp.cursorId ∧
      getCursorId (fun _ => none) cursorOp = (.error .unmarshalFailed, cursorOp) ∧
      cursorParseCount cursorOp = 1 :=
  getCursorId_error_preserves (fun _ => none) cursorOp cursorOp rfl
